import Mathlib

/-!
Verification of the Quest Board front end (Antismart/base-build-quest).

The repository is a React/Next.js client: hooks fetch on-chain quest records
and off-chain metadata, forms validate input, and views are gated on flags.
This file shallowly embeds the repository's own logic:

* external browser/runtime services (the RPC client, `fetch`, the pinning
  endpoint, `parseFloat`, `Date` parsing, the connected wallet) are modelled
  as explicit environment records handed to each model, holding the outcomes
  those services would return;
* each data-fetching hook (`useQuest`, `useQuests`) is modelled as a function
  from its environment and an unmount time to the list of network requests it
  issues and the list of state writes it performs, each write tagged with the
  await-resumption index at which it happens, so that the `mounted` liveness
  flag of the source can be evaluated at the moment of each write;
* JavaScript numbers are modelled as exact rationals, and the one place where
  binary64 rounding is observable (the prize-to-wei conversion
  `BigInt(Math.floor(eth * 1e18))` in `src/app/create/page.tsx`) uses an
  explicit round-to-nearest-ties-to-even model of IEEE-754 doubles; the
  rounding pipeline is written over integer numerators and denominators so
  that it evaluates inside the kernel.
-/

namespace QuestBoard

/-! ## JavaScript string primitives

JS built-ins (`trim`, `toLowerCase`) are modelled over the character list of
a string, which the kernel can evaluate; the source strings are ASCII. -/

/-- JS truthiness of an optional string (`undefined`, `null` and `""` are
falsy), used wherever the source tests a string with `!x` or `x && …`. -/
def jsTruthyS : Option String → Bool
  | none => false
  | some s => s ≠ ""

/-- JS `a || b` for an optional string field: the fallback is used when the
field is missing or empty (falsy). -/
def jsOrS (o : Option String) (d : String) : String :=
  match o with
  | none => d
  | some s => if s = "" then d else s

/-- Model of JS `String.prototype.trim`: drop whitespace from both ends. -/
def jsTrim (s : String) : String :=
  ⟨(((s.data.dropWhile Char.isWhitespace).reverse.dropWhile
      Char.isWhitespace).reverse)⟩

/-- Model of JS `String.prototype.toLowerCase` on ASCII strings. -/
def jsToLower (s : String) : String :=
  ⟨s.data.map Char.toLower⟩

/-! ## IEEE-754 binary64 model

A finite double is an exact rational; rounding a positive rational `n / d`
to a double normalises the fraction into `[2^52, 2^53)` by powers of two and
rounds to the nearest integer significand, ties to even — the semantics of
both ECMA-262 number parsing and JS multiplication.  Overflow and subnormals
are outside the range of every quantity this repository manipulates and are
not modelled. -/

/-- Normalisation loop: scale the fraction `n / d` (positive) by powers of
two until it lies in `[2^52, 2^53)`, returning the scaled numerator and
denominator together with the accumulated exponent, so that
`n / d = (n' / d') * 2 ^ e`.  The fuel bound covers every exponent a finite
double can have. -/
def normLoopN : ℕ → ℕ → ℕ → ℤ → ℕ × ℕ × ℤ
  | 0, n, d, e => (n, d, e)
  | fuel + 1, n, d, e =>
    if n < 2 ^ 52 * d then normLoopN fuel (2 * n) d (e - 1)
    else if 2 ^ 53 * d ≤ n then normLoopN fuel n (2 * d) (e + 1)
    else (n, d, e)

/-- Round the fraction `n / d` (with `d ≠ 0`) to the nearest integer, ties
to even. -/
def roundNearestEvenN (n d : ℕ) : ℕ :=
  let q := n / d
  let r := n % d
  if 2 * r < d then q
  else if d < 2 * r then q + 1
  else if q % 2 = 0 then q else q + 1

/-- Round the positive rational `n / d` to a binary64 value, returned as a
significand–exponent pair `(m, e)` with value `m * 2 ^ e`. -/
def roundPosToDouble (n d : ℕ) : ℕ × ℤ :=
  let t := normLoopN 4400 n d 0
  (roundNearestEvenN t.1 t.2.1, t.2.2)

/-- The rational value of a significand–exponent pair `m * 2 ^ e`. -/
def dyadicToQ (m : ℕ) (e : ℤ) : ℚ :=
  if 0 ≤ e then mkRat ((m : ℤ) * 2 ^ e.toNat) 1 else mkRat (m : ℤ) (2 ^ (-e).toNat)

/-- Round the rational `n / d` to the nearest binary64 value (ties to even),
as an exact rational.  Only the ratio of `n` to `d` matters, so callers may
pass unreduced fractions. -/
def roundND (n : ℤ) (d : ℕ) : ℚ :=
  if n = 0 then 0
  else
    let p := roundPosToDouble n.natAbs d
    if n < 0 then -(dyadicToQ p.1 p.2) else dyadicToQ p.1 p.2

/-- Round a rational to the nearest binary64 value, ties to even. -/
def roundToDouble (q : ℚ) : ℚ := roundND q.num q.den

/-- Binary64 multiplication of two doubles given as exact rationals: the
exact product, correctly rounded back to a double.  The product is passed to
the rounding pipeline as a numerator–denominator pair, which is sound because
`roundND` only depends on the ratio. -/
def flMul (a b : ℚ) : ℚ := roundND (a.num * b.num) (a.den * b.den)

/-- The double literal `1e18` of the source, which is exactly representable
(`10^18 = 2^18 * 5^18` and `5^18 < 2^53`). -/
def oneE18 : ℚ := mkRat (10 ^ 18) 1

/-! ## JavaScript number parsing -/

/-- Interpret a list of decimal digit characters as a natural number;
`none` when the list is empty or contains a non-digit. -/
def digitsToNat (l : List Char) : Option ℕ :=
  if l = [] then none
  else if l.all Char.isDigit then
    some (l.foldl (fun acc c => acc * 10 + (c.toNat - '0'.toNat)) 0)
  else none

/-- Split a character list at every occurrence of the separator. -/
def splitOnChar (c : Char) : List Char → List (List Char)
  | [] => [[]]
  | x :: xs =>
    let r := splitOnChar c xs
    if x = c then [] :: r
    else
      match r with
      | [] => [[x]]
      | h :: t => (x :: h) :: t

/-- Exact rational value of a plain decimal literal `digits` or
`digits.digits`; `none` on any other shape.  This covers the numeric strings
the forms of this repository produce. -/
def parseDecimalQ (s : String) : Option ℚ :=
  match splitOnChar '.' s.data with
  | [w] => (digitsToNat w).map (fun n => mkRat (n : ℤ) 1)
  | [w, f] =>
    match digitsToNat w, digitsToNat f with
    | some a, some b => some (mkRat ((a : ℤ) * 10 ^ f.length + (b : ℤ)) (10 ^ f.length))
    | _, _ => none
  | _ => none

/-- Model of JavaScript `parseFloat` on plain decimal literals: the decimal
value, correctly rounded to binary64 as ECMA-262 prescribes.  `none` stands
for a non-finite result (`NaN`), which is what `parseFloat` yields on the
strings this parser rejects. -/
def jsParseFloatDec (s : String) : Option ℚ :=
  (parseDecimalQ s).map (fun q => roundND q.num q.den)

/-! ## `src/lib/chain.ts` -/

/-- The `QUESTBOARD_ADDRESS` fallback literal from `src/lib/chain.ts` (the
environment override is absent in the verified configuration). -/
def QUESTBOARD_ADDRESS : String := "0x24F1380D389Eb506dC8E19C777fB3078C31617a4"

/-! ## Quest data model

The tuple returned by the `getQuest` contract read, as destructured by both
`useQuest` variants:
`[creator, cid, prize, deadline, cancelled, finalized, participantsCount,
winners]`. -/

structure QuestRecord where
  creator : String
  cid : String
  prize : ℤ
  deadline : ℤ
  cancelled : Bool
  finalized : Bool
  participantsCount : ℤ
  winners : List String
deriving DecidableEq, Repr

/-- Off-chain quest metadata `{title?, description?}` fetched from the
content gateway. -/
structure QuestMetadata where
  title : Option String
  description : Option String
deriving DecidableEq, Repr

/-- Outcome of the metadata `fetch`: the HTTP `ok` flag and the result of
`r.json()` (`Except.error` models a rejected JSON parse). -/
structure MetaResponse where
  ok : Bool
  json : Except String QuestMetadata

/-- Environment of one `useQuest` fetch lifecycle: the outcome the RPC
`readContract` call would deliver, and the outcome of the metadata `fetch`
(`Except.error` models a rejected promise / network failure). -/
structure QuestFetchEnv where
  getQuest : Except String QuestRecord
  metaFetch : Except String MetaResponse

/-- A network request issued by a hook. -/
inductive NetRequest where
  | questCount
  | getQuest (id : ℤ)
  | metaFetch (cid : String)
deriving DecidableEq, Repr

/-- One `setState` call of a hook. -/
inductive HookWrite where
  | setQuest (id : ℤ) (q : QuestRecord)
  | setMetadata (m : QuestMetadata)
  | setError (e : String)
  | setLoading (b : Bool)
deriving DecidableEq, Repr

/-- The `mounted` flag at await-resumption time `t` when the effect cleanup runs
just before resumption `u` (`none`: the component is never unmounted).
Time `0` is the synchronous part of the effect; resumption `k ≥ 1` is the
`k`-th time the async function resumes after an `await`. -/
def mountedAt (u : Option ℕ) (t : ℕ) : Bool :=
  match u with
  | none => true
  | some k => t < k

/-! ## `useQuest` (src/app/quest/[id]/page.tsx, lines 38–94)

The effect body is broken at its `await` points; all code between two
`await`s runs atomically.  `readContract` resolves at resumption 1, the
metadata `fetch` at resumption 2, `r.json()` at resumption 3.  A thrown
promise rejection surfaces at the resumption of the corresponding `await`,
where the `catch` block runs; `finally` runs in the same segment as whatever
terminated the `try`.  The structurally identical simple variant of the hook
in the repository differs only in presentation types, not in this control
flow, so one model covers both. -/

/-- The metadata phase of `useQuest`, reached when the record was stored and
its pointer is non-empty: the `fetch(ipfsCidUrl(cid))` request and the writes
it leads to.  A rejected fetch surfaces in the `catch` at resumption 2; a
resolved response either skips `r.json()` (non-OK) or awaits it, so the parse
outcome — the metadata write or the `catch`-written error — lands at
resumption 3, followed by the `finally` write. -/
def metaPhase (cid : String) (mf : Except String MetaResponse) :
    List NetRequest × List (ℕ × HookWrite) :=
  match mf with
  | .error e => ([.metaFetch cid], [(2, .setError e), (2, .setLoading false)])
  | .ok resp =>
    if resp.ok then
      match resp.json with
      | .error e =>
        ([.metaFetch cid], [(3, .setError e), (3, .setLoading false)])
      | .ok m =>
        ([.metaFetch cid], [(3, .setMetadata m), (3, .setLoading false)])
    else
      ([.metaFetch cid], [(2, .setLoading false)])

/-- The network requests issued and the state writes performed (tagged with
their resumption time) by one run of `useQuest questId`, when the component
is unmounted just before resumption `u`. -/
def runUseQuest (questId : ℤ) (env : QuestFetchEnv) (u : Option ℕ) :
    List NetRequest × List (ℕ × HookWrite) :=
  -- the `readContract` request itself is issued unconditionally in the
  -- synchronous part of the effect, before any guard can run
  let rest : List NetRequest × List (ℕ × HookWrite) :=
    match env.getQuest with
    | .error e =>
      ([], [(1, .setError e), (1, .setLoading false)])
    | .ok q =>
      if mountedAt u 1 = false then
        -- `if (!mounted) return;` — but `finally` still runs `setLoading(false)`
        ([], [(1, .setLoading false)])
      else if q.cid = "" then
        ([], [(1, .setQuest questId q), (1, .setLoading false)])
      else
        let mp := metaPhase q.cid env.metaFetch
        (mp.1, (1, .setQuest questId q) :: mp.2)
  (.getQuest questId :: rest.1, rest.2)

/-- React-visible state of the `useQuest` hook. -/
structure QuestHookState where
  loading : Bool
  error : Option String
  quest : Option (ℤ × QuestRecord)
  metadata : Option QuestMetadata
deriving DecidableEq, Repr

/-- Initial hook state (`useState(true)`, `useState(null)`, …). -/
def questHookInit : QuestHookState :=
  { loading := true, error := none, quest := none, metadata := none }

/-- Apply one `setState` call. -/
def applyWrite (st : QuestHookState) : HookWrite → QuestHookState
  | .setQuest id q => { st with quest := some (id, q) }
  | .setMetadata m => { st with metadata := some m }
  | .setError e => { st with error := some e }
  | .setLoading b => { st with loading := b }

/-- Final hook state after a fetch lifecycle on a component that stays
mounted. -/
def useQuestFinalState (questId : ℤ) (env : QuestFetchEnv) : QuestHookState :=
  ((runUseQuest questId env none).2.map Prod.snd).foldl applyWrite questHookInit

/-- The writes a run performs while the component is already unmounted. -/
def unmountedWrites (questId : ℤ) (env : QuestFetchEnv) (u : Option ℕ) :
    List (ℕ × HookWrite) :=
  (runUseQuest questId env u).2.filter (fun w => !mountedAt u w.1)

/-! ## `QuestDetail` page render (src/app/quest/[id]/page.tsx, lines 96–245)

Render outcome as a function of the resolved route params and the hook
state, following the early returns of the component body in source order:
unresolved params → skeleton; `id <= 0` → the invalid-input view; then the
loading skeleton, the error view, or the content. -/

inductive DetailPageView where
  | paramsSkeleton
  | invalidId
  | loadingSkeleton
  | errorView (e : String)
  | content
deriving DecidableEq, Repr

/-- Model of `id = resolvedParams ? BigInt(resolvedParams.id) : BigInt(0)`: the page's
quest id, with route params modelled as the parsed id value. -/
def detailPageId (resolvedParams : Option ℤ) : ℤ :=
  match resolvedParams with
  | none => 0
  | some i => i

/-- The view `QuestDetail` renders, given resolved params and hook state. -/
def questDetailView (resolvedParams : Option ℤ) (st : QuestHookState) :
    DetailPageView :=
  match resolvedParams with
  | none => .paramsSkeleton
  | some i =>
    if i ≤ 0 then .invalidId
    else if st.loading then .loadingSkeleton
    else
      match st.error with
      | some e => .errorView e
      | none => .content

/-! ## `useQuests` (src/app/quests/page.tsx)

The file holds two variants of the listing hook.  The Grove variant
(lines 12–72) enumerates ids `1..count` and enriches each record with
metadata inside a per-item `try`; the simple variant (lines 146–175)
enumerates ids `0..count-1` and fetches no metadata.  Both abort the whole
listing when a record read throws, filter out cancelled quests, and guard
only the `setItems` write with the `mounted` flag. -/

/-- Environment of one listing lifecycle: outcome of the `questCount` read,
of each per-id record read, and of each per-cid metadata fetch. -/
structure QuestListEnv where
  questCount : Except String ℕ
  getQuest : ℤ → Except String QuestRecord
  metaFetch : String → Except String MetaResponse

/-- An item pushed onto the listing array by the Grove variant, including
the metadata-derived display fields. -/
structure ListItem where
  id : ℤ
  creator : String
  cid : String
  prize : ℤ
  deadline : ℤ
  cancelled : Bool
  finalized : Bool
  participantsCount : ℤ
  title : String
  description : String
deriving DecidableEq, Repr

/-- One `setState` call of the listing hook. -/
inductive ListWrite where
  | setItems (l : List ListItem)
  | setError (e : String)
  | setLoading (b : Bool)
deriving DecidableEq, Repr

/-- The `Quest #<id>` fallback title of the Grove listing. -/
def questFallbackTitle (id : ℤ) : String :=
  "Quest #" ++ toString id

/-- Build the Grove listing item for a record and its (optional) metadata,
with the `metadata?.title || `Quest #${id}`` and `metadata?.description ||
""` fallbacks of the source. -/
def mkListItem (id : ℤ) (q : QuestRecord) (meta : Option QuestMetadata) :
    ListItem :=
  { id := id, creator := q.creator, cid := q.cid, prize := q.prize,
    deadline := q.deadline, cancelled := q.cancelled,
    finalized := q.finalized, participantsCount := q.participantsCount,
    title := jsOrS (meta.bind (·.title)) (questFallbackTitle id),
    description := jsOrS (meta.bind (·.description)) "" }

/-- One iteration of the Grove listing loop for quest `id`, entered at
resumption time `t`: the requests issued, the resumption time after the
item, and either the item or the record-read error that aborts the loop.
Metadata failures (a rejected fetch, a non-OK response, or a rejected
`r.json()`) are swallowed by the per-item `try` and leave the metadata
absent. -/
def groveFetchItem (env : QuestListEnv) (t : ℕ) (id : ℤ) :
    List NetRequest × ℕ × Except String ListItem :=
  match env.getQuest id with
  | .error e => ([.getQuest id], t + 1, .error e)
  | .ok q =>
    if q.cid = "" then
      ([.getQuest id], t + 1, .ok (mkListItem id q none))
    else
      match env.metaFetch q.cid with
      | .error _ =>
        ([.getQuest id, .metaFetch q.cid], t + 2, .ok (mkListItem id q none))
      | .ok resp =>
        if resp.ok then
          match resp.json with
          | .error _ =>
            ([.getQuest id, .metaFetch q.cid], t + 3,
             .ok (mkListItem id q none))
          | .ok m =>
            ([.getQuest id, .metaFetch q.cid], t + 3,
             .ok (mkListItem id q (some m)))
        else
          ([.getQuest id, .metaFetch q.cid], t + 2, .ok (mkListItem id q none))

/-- The sequential `for (const id of ids)` loop of the Grove variant: items
in order, aborted by the first record-read error. -/
def groveLoop (env : QuestListEnv) : List ℤ → ℕ →
    List NetRequest × ℕ × Except String (List ListItem)
  | [], t => ([], t, .ok [])
  | id :: rest, t =>
    let s := groveFetchItem env t id
    match s.2.2 with
    | .error e => (s.1, s.2.1, .error e)
    | .ok item =>
      let r := groveLoop env rest s.2.1
      match r.2.2 with
      | .error e => (s.1 ++ r.1, r.2.1, .error e)
      | .ok items => (s.1 ++ r.1, r.2.1, .ok (item :: items))

/-- Model of `Array.from` over `(_, i) => BigInt(i + 1)`: the ids the Grove
variant enumerates. -/
def groveIds (n : ℕ) : List ℤ :=
  List.map (fun i : ℕ => (i : ℤ) + 1) (List.range n)

/-- Model of `Array.from` over `(_, i) => BigInt(i)`: the ids the simple
variant enumerates. -/
def simpleIds (n : ℕ) : List ℤ :=
  List.map (fun i : ℕ => (i : ℤ)) (List.range n)

/-- One run of the Grove `useQuests` effect: requests issued and writes
performed (tagged with resumption times), when the component is unmounted
just before resumption `u`.  `questCount` resolves at resumption 1; the item
loop then advances the clock; `setItems` (guarded by `mounted`) and the
`finally` `setLoading(false)` run at the final resumption. -/
def runUseQuestsGrove (env : QuestListEnv) (u : Option ℕ) :
    List NetRequest × List (ℕ × ListWrite) :=
  match env.questCount with
  | .error e => ([.questCount], [(1, .setError e), (1, .setLoading false)])
  | .ok n =>
    let r := groveLoop env (groveIds n) 1
    match r.2.2 with
    | .error e =>
      (.questCount :: r.1, [(r.2.1, .setError e), (r.2.1, .setLoading false)])
    | .ok items =>
      (.questCount :: r.1,
       (if mountedAt u r.2.1 then
          [(r.2.1, .setItems (items.filter (fun i => !i.cancelled)))]
        else []) ++ [(r.2.1, .setLoading false)])

/-- One iteration of the simple listing loop: a single record read per id,
no metadata fetch. -/
def simpleFetchItem (env : QuestListEnv) (t : ℕ) (id : ℤ) :
    List NetRequest × ℕ × Except String ListItem :=
  match env.getQuest id with
  | .error e => ([.getQuest id], t + 1, .error e)
  | .ok q => ([.getQuest id], t + 1, .ok (mkListItem id q none))

/-- The sequential loop of the simple variant. -/
def simpleLoop (env : QuestListEnv) : List ℤ → ℕ →
    List NetRequest × ℕ × Except String (List ListItem)
  | [], t => ([], t, .ok [])
  | id :: rest, t =>
    let s := simpleFetchItem env t id
    match s.2.2 with
    | .error e => (s.1, s.2.1, .error e)
    | .ok item =>
      let r := simpleLoop env rest s.2.1
      match r.2.2 with
      | .error e => (s.1 ++ r.1, r.2.1, .error e)
      | .ok items => (s.1 ++ r.1, r.2.1, .ok (item :: items))

/-- One run of the simple `useQuests` effect (the item record of the simple
variant carries no metadata fields; it is modelled with the same `ListItem`
type, metadata fields at their fallbacks). -/
def runUseQuestsSimple (env : QuestListEnv) (u : Option ℕ) :
    List NetRequest × List (ℕ × ListWrite) :=
  match env.questCount with
  | .error e => ([.questCount], [(1, .setError e), (1, .setLoading false)])
  | .ok n =>
    let r := simpleLoop env (simpleIds n) 1
    match r.2.2 with
    | .error e =>
      (.questCount :: r.1, [(r.2.1, .setError e), (r.2.1, .setLoading false)])
    | .ok items =>
      (.questCount :: r.1,
       (if mountedAt u r.2.1 then
          [(r.2.1, .setItems (items.filter (fun i => !i.cancelled)))]
        else []) ++ [(r.2.1, .setLoading false)])

/-- The quest ids of the record reads among a request list. -/
def getQuestIds (reqs : List NetRequest) : List ℤ :=
  reqs.filterMap (fun r =>
    match r with
    | .getQuest i => some i
    | _ => none)

/-! ## Status display (src/lib/chain.ts line 179, quest/[id]/page.tsx 304–335)

The simple detail page shows a single status string
`quest?.finalized ? "Finalized" : quest?.cancelled ? "Cancelled" :
afterDeadline ? "Ended" : "Open"`; the Grove detail page shows independent
status badges. -/

/-- The status string of the simple detail page. -/
def questStatus (finalized cancelled afterDeadline : Bool) : String :=
  if finalized then "Finalized"
  else if cancelled then "Cancelled"
  else if afterDeadline then "Ended"
  else "Open"

/-- The status badges of the Grove detail page, in render order. -/
def questBadges (finalized cancelled afterDeadline : Bool) : List String :=
  (if finalized then ["Finalized"] else []) ++
  (if cancelled then ["Cancelled"] else []) ++
  (if !finalized && !cancelled && afterDeadline then ["Ended"] else []) ++
  (if !finalized && !cancelled && !afterDeadline then ["Open"] else [])

/-! ## Detail-page action gating (both variants) -/

/-- Model of `quest?.finalized` under JS optional chaining: `undefined` (no quest) is
falsy. -/
def questFinalized : Option QuestRecord → Bool
  | none => false
  | some q => q.finalized

/-- Model of `quest?.cancelled` under JS optional chaining. -/
def questCancelled : Option QuestRecord → Bool
  | none => false
  | some q => q.cancelled

/-- Model of `afterDeadline = quest && Math.floor(Date.now() / 1000) > quest.deadline`
(both detail variants); a missing quest is falsy. -/
def afterDeadlineB (quest : Option QuestRecord) (nowSec : ℤ) : Bool :=
  match quest with
  | none => false
  | some q => q.deadline < nowSec

/-- Grove variant: the submission section renders iff
`!quest?.finalized && !quest?.cancelled && !afterDeadline` (line 439). -/
def submitSectionVisibleGrove (quest : Option QuestRecord) (nowSec : ℤ) :
    Bool :=
  !questFinalized quest && !questCancelled quest && !afterDeadlineB quest nowSec

/-- Simple variant: the submission card renders iff
`!quest?.finalized && !quest?.cancelled` (chain.ts concatenation line 185). -/
def submitSectionVisibleSimple (quest : Option QuestRecord) : Bool :=
  !questFinalized quest && !questCancelled quest

/-- Grove variant: the prepare button is enabled iff
`!(!link.trim() || submitting)` (line 492), and `handlePrepareSubmission`
additionally returns unless `link.trim()` is truthy (line 132).  Both gates
require a non-blank trimmed link. -/
def submitEnabledGrove (link : String) (submitting : Bool) : Bool :=
  !(jsTrim link = "") && !submitting

/-- Simple variant: the submit button is enabled iff `!(!link || submitting)`
(chain.ts concatenation line 198); the raw string is tested, without
trimming, and `handleSubmit` has no further link guard. -/
def submitEnabledSimple (link : String) (submitting : Bool) : Bool :=
  !(link = "") && !submitting

/-! ## Winner-selection visibility (quest/[id]/page.tsx 123–128, 583) -/

/-- Model of `isCreator`: the connected wallet address (`context.wallets[0]?.address`)
is truthy, the quest's creator is truthy, and the two compare equal after
`toLowerCase()`. -/
def isCreator (ctxAddr : Option String) (quest : Option QuestRecord) : Bool :=
  match ctxAddr, quest with
  | some a, some q =>
    !(a = "") && !(q.creator = "") && (jsToLower q.creator = jsToLower a)
  | _, _ => false

/-- The creator-actions card renders iff
`isCreator && afterDeadline && !quest?.finalized` (line 583). -/
def winnersControlVisible (ctxAddr : Option String)
    (quest : Option QuestRecord) (nowSec : ℤ) : Bool :=
  isCreator ctxAddr quest && afterDeadlineB quest nowSec &&
    !questFinalized quest

/-! ## Quest creation form (src/app/create/page.tsx)

Component state is the five `useState` fields plus the prepared transaction
calls; browser/runtime services (`parseFloat`, `Date` parsing, `Date.now()`,
the pin endpoint, the connected wallet) are an environment record. -/

/-- The `encodeFunctionData` output, modelled symbolically by the function name
and arguments it encodes (ABI encoding itself is a third-party library). -/
inductive CallData where
  | createQuest (cid : String) (deadlineSeconds : ℤ)
  | submit (id : ℤ) (cid : String)
  | selectWinners (id : ℤ) (winners : List String)
deriving DecidableEq, Repr

/-- One entry of `transactionCalls`: the `to` target address, the encoded
call data, and the attached value in wei. -/
structure TxCall where
  toAddr : String
  callData : CallData
  value : ℤ
deriving DecidableEq, Repr

/-- Component state of `CreateQuest`. -/
structure CreateState where
  title : String
  description : String
  prize : String
  deadline : String
  loading : Bool
  transactionCalls : List TxCall
deriving DecidableEq, Repr

/-- Environment of the creation flow.  `parseFloatQ` and `dateParseMs` model
`parseFloat` and `new Date(s).getTime()` (`none` = `NaN`/non-finite);
`nowMs` is `Date.now()`; `pinCid` is the `cid` field of the `/api/pin`
response (`none` when the request rejects or the field is missing); `address`
is the connected wallet address from `useAccount()`. -/
structure CreateEnv where
  parseFloatQ : String → Option ℚ
  dateParseMs : String → Option ℤ
  nowMs : ℤ
  pinCid : Option String
  address : Option String

/-- Model of `isValidTitle = title.trim().length > 2` (line 30). -/
def isValidTitle (st : CreateState) : Bool :=
  2 < (jsTrim st.title).length

/-- Model of `isValidDescription = description.trim().length > 5` (line 31). -/
def isValidDescription (st : CreateState) : Bool :=
  5 < (jsTrim st.description).length

/-- Model of `isValidPrize`: `parseFloat(prize)` is finite and positive
(lines 32–35). -/
def isValidPrize (env : CreateEnv) (st : CreateState) : Bool :=
  match env.parseFloatQ st.prize with
  | none => false
  | some n => 0 < n

/-- Model of `isValidDeadline`: the field is non-empty and parses to a finite
timestamp strictly more than 60 000 ms in the future (lines 36–40). -/
def isValidDeadline (env : CreateEnv) (st : CreateState) : Bool :=
  if st.deadline = "" then false
  else
    match env.dateParseMs st.deadline with
    | none => false
    | some t => env.nowMs + 60000 < t

/-- Model of `canSubmit = isValidTitle && isValidDescription && isValidPrize &&
isValidDeadline && !loading` (line 41). -/
def canSubmit (env : CreateEnv) (st : CreateState) : Bool :=
  isValidTitle st && isValidDescription st && isValidPrize env st &&
    isValidDeadline env st && !st.loading

/-- An observable side effect of the prepare handler: the POST to the pin
endpoint, or an `encodeFunctionData` invocation. -/
inductive CreateEffect where
  | pinRequest (title description : String)
  | encodeCall (d : CallData)
deriving DecidableEq, Repr

/-- Model of `handlePrepareTransaction` (lines 62–98): returns the state after the
handler settles together with the effects it performed.

Control flow of the source: bail out unless `canSubmit && address`; set
`loading`; POST the metadata to `/api/pin` and throw when the response has
no truthy `cid`; compute `seconds = Math.floor(getTime() / 1000)` and encode
the `createQuest` call (a `NaN` timestamp makes `BigInt(seconds)` throw
before encoding); re-parse the prize and throw unless finite and positive;
convert to wei by `BigInt(Math.floor(eth * 1e18))` — a binary64 multiply —
and store the prepared call.  Every throw lands in the `catch`, which resets
`loading`. -/
def handlePrepareTransaction (env : CreateEnv) (st : CreateState) :
    CreateState × List CreateEffect :=
  if !canSubmit env st || !jsTruthyS env.address then (st, [])
  else
    let effects := [CreateEffect.pinRequest st.title st.description]
    match env.pinCid with
    | none => ({ st with loading := false }, effects)
    | some cid =>
      if cid = "" then ({ st with loading := false }, effects)
      else
        match env.dateParseMs st.deadline with
        | none => ({ st with loading := false }, effects)
        | some t =>
          let seconds := Int.fdiv t 1000
          let d := CallData.createQuest cid seconds
          let effects := effects ++ [CreateEffect.encodeCall d]
          match env.parseFloatQ st.prize with
          | none => ({ st with loading := false }, effects)
          | some eth =>
            if eth ≤ 0 then ({ st with loading := false }, effects)
            else
              let valueWei := Rat.floor (flMul eth oneE18)
              let call : TxCall :=
                { toAddr := QUESTBOARD_ADDRESS, callData := d,
                  value := valueWei }
              ({ st with loading := true, transactionCalls := [call] },
               effects)

/-! ## Concrete sample data for witnesses and counterexamples -/

/-- Table model of `parseFloat` for witness runs: the strings the samples
use, with their binary64 values. -/
def tableParseFloat (s : String) : Option ℚ :=
  if s = "2" then some 2 else none

/-- Table model of `new Date(s).getTime()` for witness runs. -/
def tableDateParse (s : String) : Option ℤ :=
  if s = "2030-01-01T00:00" then some 1893456000000 else none

/-- A creation-form state whose four field validators all pass. -/
def validFields : CreateState :=
  { title := "Build", description := "Build a thing", prize := "2",
    deadline := "2030-01-01T00:00", loading := false, transactionCalls := [] }

/-- A creation environment with a connected wallet and a working pin
endpoint. -/
def envWallet : CreateEnv :=
  { parseFloatQ := tableParseFloat, dateParseMs := tableDateParse,
    nowMs := 1760000000000, pinCid := some "QmPin", address := some "0xA11CE" }

/-- The same environment with no connected wallet. -/
def envNoWallet : CreateEnv :=
  { envWallet with address := none }

/-- A creation environment whose prize parsing is the real decimal →
binary64 model. -/
def envPrize : CreateEnv :=
  { parseFloatQ := jsParseFloatDec, dateParseMs := tableDateParse,
    nowMs := 1760000000000, pinCid := some "QmPin", address := some "0xA11CE" }

/-- The valid form state with the prize field set to "1.1" ETH. -/
def prizeState : CreateState :=
  { validFields with prize := "1.1" }

/-- A plain quest record used by several samples. -/
def sampleQuest : QuestRecord :=
  { creator := "0xCreAtor", cid := "", prize := 10 ^ 18, deadline := 1000,
    cancelled := false, finalized := false, participantsCount := 0,
    winners := [] }

/-- A fetch environment whose record read rejects. -/
def envRejected : QuestFetchEnv :=
  { getQuest := .error "quest not found", metaFetch := .error "unused" }

/-- Sample quest metadata. -/
def metaSample : QuestMetadata :=
  { title := some "Grove", description := some "Plant things" }

/-- A quest record with a non-empty metadata pointer. -/
def questWithCid : QuestRecord :=
  { sampleQuest with cid := "QmMeta" }

/-- Record read succeeds; metadata fetch succeeds and parses. -/
def envMetaOk : QuestFetchEnv :=
  { getQuest := .ok questWithCid,
    metaFetch := .ok { ok := true, json := .ok metaSample } }

/-- Record read succeeds; metadata fetch returns OK but its JSON parse
rejects. -/
def envMetaParseFail : QuestFetchEnv :=
  { getQuest := .ok questWithCid,
    metaFetch := .ok { ok := true, json := .error "Unexpected token" } }

/-- Record read succeeds; metadata fetch returns a non-OK response. -/
def envMetaNotOk : QuestFetchEnv :=
  { getQuest := .ok questWithCid,
    metaFetch := .ok { ok := false, json := .error "unused" } }

/-- A listing environment with one quest and every record read succeeding. -/
def sampleListEnv : QuestListEnv :=
  { questCount := .ok 1, getQuest := fun _ => .ok sampleQuest,
    metaFetch := fun _ => .error "unreachable" }

/-! ## Claims -/

/-- The metadata phase never writes the quest record. -/
theorem setQuest_not_mem_metaPhase (cid : String)
    (mf : Except String MetaResponse) (t : ℕ) (i : ℤ) (q : QuestRecord) :
    (t, HookWrite.setQuest i q) ∉ (metaPhase cid mf).2 := by
  rcases mf with e | ⟨rok, rjson⟩
  · simp [metaPhase]
  · cases rok <;> cases rjson <;> simp [metaPhase]

/-- Claim C1, counterexample: at quest id 0 the page does render the
invalid-input view, but the hook still issues the contract read for id 0 —
the claimed absence of any network call for identifiers ≤ 0 fails. -/
theorem C1_counterexample :
    questDetailView (some 0) questHookInit = .invalidId ∧
    (runUseQuest 0 envRejected none).1 = [.getQuest 0] ∧
    (runUseQuest 0 envRejected none).1 ≠ [] := by
  decide

/-- Claim C1 (amended): for every resolved id ≤ 0 the page renders the
dedicated invalid-input view, but the guard is render-only: the hook issues
the contract read for that identifier in every environment and at every
unmount time; before route params resolve the id defaults to 0 and the
params skeleton (not the invalid view) renders while the hook fetches
id 0. -/
theorem C1_invalid_id_render_only (i : ℤ) (h : i ≤ 0) (st : QuestHookState)
    (env : QuestFetchEnv) (u : Option ℕ) :
    questDetailView (some i) st = .invalidId ∧
    NetRequest.getQuest i ∈ (runUseQuest i env u).1 ∧
    detailPageId none = 0 ∧
    questDetailView none st = .paramsSkeleton := by
  refine ⟨?_, ?_, rfl, rfl⟩
  · simp [questDetailView, h]
  · simp [runUseQuest]

/-- Claim C1, witness: the amended statement applied at id `-3`. -/
theorem C1_invalid_id_render_only_witness :
    questDetailView (some (-3)) questHookInit = .invalidId ∧
    NetRequest.getQuest (-3) ∈ (runUseQuest (-3) envRejected (some 1)).1 ∧
    detailPageId none = 0 ∧
    questDetailView none questHookInit = .paramsSkeleton :=
  C1_invalid_id_render_only (-3) (by decide) questHookInit envRejected (some 1)

/-- Claim C2, counterexample: unmounting after the record write but before
the metadata fetch settles still lets the hook write metadata and loading;
unmounting before a failing record read resolves still lets it write the
error and loading — pending operations do perform state writes after
unmount. -/
theorem C2_counterexample :
    unmountedWrites 1 envMetaOk (some 2) =
      [(3, .setMetadata metaSample), (3, .setLoading false)] ∧
    unmountedWrites 1 envMetaOk (some 2) ≠ [] ∧
    unmountedWrites 1 envRejected (some 1) =
      [(1, .setError "quest not found"), (1, .setLoading false)] := by
  decide

/-- Claim C2 (amended): the liveness flag guards exactly the record writes —
`setQuest` in the detail hook and `setItems` in both listing variants are
never performed after unmount; the error, loading and (detail-hook) metadata
writes are unguarded. -/
theorem C2_liveness_guard (id : ℤ) (env : QuestFetchEnv)
    (lenv : QuestListEnv) (u : Option ℕ) :
    (∀ t i q, (t, HookWrite.setQuest i q) ∈ (runUseQuest id env u).2 →
      mountedAt u t = true) ∧
    (∀ t l, (t, ListWrite.setItems l) ∈ (runUseQuestsGrove lenv u).2 →
      mountedAt u t = true) ∧
    (∀ t l, (t, ListWrite.setItems l) ∈ (runUseQuestsSimple lenv u).2 →
      mountedAt u t = true) := by
  refine ⟨?_, ?_, ?_⟩
  · intro t i q h
    unfold runUseQuest at h
    cases henv : env.getQuest with
    | error e => simp only [henv] at h; simp at h
    | ok qq =>
      simp only [henv] at h
      cases hmv : mountedAt u 1 with
      | false => simp only [hmv] at h; simp at h
      | true =>
        by_cases hcid : qq.cid = ""
        · simp only [hmv, hcid] at h
          simp at h
          obtain ⟨ht, -⟩ := h
          subst ht; exact hmv
        · simp only [hmv] at h
          simp [hcid] at h
          rcases h with ⟨ht, -⟩ | h
          · subst ht; exact hmv
          · exact absurd h (setQuest_not_mem_metaPhase qq.cid env.metaFetch t i q)
  · intro t l h
    unfold runUseQuestsGrove at h
    cases hc : lenv.questCount with
    | error e => simp only [hc] at h; simp at h
    | ok n =>
      simp only [hc] at h
      cases hr : (groveLoop lenv (groveIds n) 1).2.2 with
      | error e => simp only [hr] at h; simp at h
      | ok items =>
        simp only [hr] at h
        cases hmt : mountedAt u (groveLoop lenv (groveIds n) 1).2.1 with
        | false => simp only [hmt] at h; simp at h
        | true =>
          simp only [hmt] at h
          simp at h
          obtain ⟨ht, -⟩ := h
          subst ht; exact hmt
  · intro t l h
    unfold runUseQuestsSimple at h
    cases hc : lenv.questCount with
    | error e => simp only [hc] at h; simp at h
    | ok n =>
      simp only [hc] at h
      cases hr : (simpleLoop lenv (simpleIds n) 1).2.2 with
      | error e => simp only [hr] at h; simp at h
      | ok items =>
        simp only [hr] at h
        cases hmt : mountedAt u (simpleLoop lenv (simpleIds n) 1).2.1 with
        | false => simp only [hmt] at h; simp at h
        | true =>
          simp only [hmt] at h
          simp at h
          obtain ⟨ht, -⟩ := h
          subst ht; exact hmt

/-- Claim C2, witness: the guard applied to the record write of a concrete
run that unmounts between the record and metadata resumptions. -/
theorem C2_liveness_guard_witness :
    mountedAt (some 2) 1 = true :=
  (C2_liveness_guard 1 envMetaOk sampleListEnv (some 2)).1 1 1 questWithCid
    (by decide)

/-- Claim C3, counterexample: a JSON parse failure of the metadata fetch is
caught by the outer handler and sets the error state (the error view
renders), contradicting "never transitions the view to the error state". -/
theorem C3_counterexample :
    (useQuestFinalState 1 envMetaParseFail).error = some "Unexpected token" ∧
    (useQuestFinalState 1 envMetaParseFail).metadata = none ∧
    questDetailView (some 1) (useQuestFinalState 1 envMetaParseFail) =
      .errorView "Unexpected token" := by
  decide

/-- Claim C3 (amended): for a quest whose record fetch succeeds with a
non-empty metadata pointer, a non-OK HTTP response leaves metadata absent
without touching the error state; but a rejected JSON parse, or a rejected
fetch, propagates to the outer catch and sets the error state — with the
record still set and metadata absent in every case. -/
theorem C3_metadata_failure_modes (id : ℤ) (env : QuestFetchEnv)
    (q : QuestRecord) (hq : env.getQuest = .ok q) (hcid : q.cid ≠ "") :
    (∀ resp, env.metaFetch = .ok resp → resp.ok = false →
      useQuestFinalState id env =
        { loading := false, error := none, quest := some (id, q),
          metadata := none }) ∧
    (∀ resp e, env.metaFetch = .ok resp → resp.ok = true →
      resp.json = .error e →
      useQuestFinalState id env =
        { loading := false, error := some e, quest := some (id, q),
          metadata := none }) ∧
    (∀ e, env.metaFetch = .error e →
      useQuestFinalState id env =
        { loading := false, error := some e, quest := some (id, q),
          metadata := none }) := by
  refine ⟨?_, ?_, ?_⟩
  · intro resp hresp hok
    unfold useQuestFinalState runUseQuest
    simp [hq, hcid, hresp, hok, metaPhase, mountedAt, applyWrite,
      questHookInit]
  · intro resp e hresp hok hjson
    unfold useQuestFinalState runUseQuest
    simp [hq, hcid, hresp, hok, hjson, metaPhase, mountedAt, applyWrite,
      questHookInit]
  · intro e hmeta
    unfold useQuestFinalState runUseQuest
    simp [hq, hcid, hmeta, metaPhase, mountedAt, applyWrite, questHookInit]

/-- Claim C3, witness: the non-OK branch applied at a concrete
environment. -/
theorem C3_metadata_failure_modes_witness :
    useQuestFinalState 1 envMetaNotOk =
      { loading := false, error := none, quest := some (1, questWithCid),
        metadata := none } :=
  (C3_metadata_failure_modes 1 envMetaNotOk questWithCid rfl (by decide)).1
    { ok := false, json := .error "unused" } rfl rfl

/-- A `questCount` read contributes no record-read ids. -/
theorem getQuestIds_cons_count (l : List NetRequest) :
    getQuestIds (NetRequest.questCount :: l) = getQuestIds l := by
  simp [getQuestIds]

/-- The map `getQuestIds` distributes over concatenation. -/
theorem getQuestIds_append (a b : List NetRequest) :
    getQuestIds (a ++ b) = getQuestIds a ++ getQuestIds b := by
  simp [getQuestIds]

/-- A successful record read contributes exactly its id to the Grove item
requests, and the item succeeds, whatever the metadata fetch does. -/
theorem groveFetchItem_spec (env : QuestListEnv) (t : ℕ) (id : ℤ)
    (q : QuestRecord) (hq : env.getQuest id = .ok q) :
    getQuestIds (groveFetchItem env t id).1 = [id] ∧
    ∃ item, (groveFetchItem env t id).2.2 = .ok item := by
  unfold groveFetchItem
  rw [hq]
  by_cases hcid : q.cid = ""
  · simp [hcid, getQuestIds]
  · rcases hmf : env.metaFetch q.cid with e | resp
    · simp [hcid, hmf, getQuestIds]
    · by_cases hok : resp.ok = true
      · rcases hj : resp.json with e | m <;>
          simp [hcid, hmf, hok, hj, getQuestIds]
      · simp [hcid, hmf, hok, getQuestIds]

/-- When every record read succeeds, the Grove loop issues record reads for
exactly its id list, in order. -/
theorem groveLoop_ids (env : QuestListEnv) (ids : List ℤ) (t : ℕ)
    (hok : ∀ i ∈ ids, ∃ q, env.getQuest i = .ok q) :
    getQuestIds (groveLoop env ids t).1 = ids := by
  revert hok
  induction ids generalizing t with
  | nil =>
    intro _
    simp [groveLoop, getQuestIds]
  | cons id rest ih =>
    intro hok
    obtain ⟨q, hq⟩ := hok id (by simp)
    have hr : ∀ i ∈ rest, ∃ qq, env.getQuest i = .ok qq :=
      fun i hi => hok i (by simp [hi])
    obtain ⟨hids, item, hitem⟩ := groveFetchItem_spec env t id q hq
    unfold groveLoop
    simp only [hitem]
    cases hrr : (groveLoop env rest (groveFetchItem env t id).2.1).2.2 <;>
        simp only [hrr]
    all_goals
      rw [getQuestIds_append, hids, ih (groveFetchItem env t id).2.1 hr]
      simp

/-- The simple-variant analogue of `groveFetchItem_spec`. -/
theorem simpleFetchItem_spec (env : QuestListEnv) (t : ℕ) (id : ℤ)
    (q : QuestRecord) (hq : env.getQuest id = .ok q) :
    getQuestIds (simpleFetchItem env t id).1 = [id] ∧
    ∃ item, (simpleFetchItem env t id).2.2 = .ok item := by
  unfold simpleFetchItem
  rw [hq]
  simp [getQuestIds]

/-- When every record read succeeds, the simple loop issues record reads for
exactly its id list, in order. -/
theorem simpleLoop_ids (env : QuestListEnv) (ids : List ℤ) (t : ℕ)
    (hok : ∀ i ∈ ids, ∃ q, env.getQuest i = .ok q) :
    getQuestIds (simpleLoop env ids t).1 = ids := by
  revert hok
  induction ids generalizing t with
  | nil =>
    intro _
    simp [simpleLoop, getQuestIds]
  | cons id rest ih =>
    intro hok
    obtain ⟨q, hq⟩ := hok id (by simp)
    have hr : ∀ i ∈ rest, ∃ qq, env.getQuest i = .ok qq :=
      fun i hi => hok i (by simp [hi])
    obtain ⟨hids, item, hitem⟩ := simpleFetchItem_spec env t id q hq
    unfold simpleLoop
    simp only [hitem]
    cases hrr : (simpleLoop env rest (simpleFetchItem env t id).2.1).2.2 <;>
        simp only [hrr]
    all_goals
      rw [getQuestIds_append, hids, ih (simpleFetchItem env t id).2.1 hr]
      simp

/-- Claim C4, counterexample: with one quest on chain the Grove listing
reads the record for id 1 while the simple variant reads the record for
id 0 — the claimed 1-based enumeration does not hold in both variants. -/
theorem C4_counterexample :
    getQuestIds (runUseQuestsGrove sampleListEnv none).1 = [1] ∧
    getQuestIds (runUseQuestsSimple sampleListEnv none).1 = [0] ∧
    getQuestIds (runUseQuestsSimple sampleListEnv none).1 ≠ [1] := by
  decide

/-- Claim C4 (amended): after reading the quest counter, the Grove variant
fetches records for exactly the identifiers 1 through counter inclusive, one
at a time ascending (never 0, never beyond the counter); the simple variant
fetches exactly the identifiers 0 through counter − 1 ascending — the
off-by-one the spec flags as a latent bug in one variant. -/
theorem C4_list_enumeration (lenv : QuestListEnv) (n : ℕ) (u : Option ℕ)
    (hc : lenv.questCount = .ok n)
    (hok : ∀ i : ℤ, ∃ q, lenv.getQuest i = .ok q) :
    getQuestIds (runUseQuestsGrove lenv u).1 = groveIds n ∧
    getQuestIds (runUseQuestsSimple lenv u).1 = simpleIds n ∧
    groveIds n = List.map (fun i : ℕ => (i : ℤ) + 1) (List.range n) ∧
    (∀ i ∈ groveIds n, 1 ≤ i ∧ i ≤ (n : ℤ)) ∧
    (0 < n → (0 : ℤ) ∈ simpleIds n) := by
  refine ⟨?_, ?_, rfl, ?_, ?_⟩
  · unfold runUseQuestsGrove
    simp only [hc]
    cases hr : (groveLoop lenv (groveIds n) 1).2.2 <;> simp only [hr] <;>
      rw [getQuestIds_cons_count,
        groveLoop_ids lenv (groveIds n) 1 (fun i _ => hok i)]
  · unfold runUseQuestsSimple
    simp only [hc]
    cases hr : (simpleLoop lenv (simpleIds n) 1).2.2 <;> simp only [hr] <;>
      rw [getQuestIds_cons_count,
        simpleLoop_ids lenv (simpleIds n) 1 (fun i _ => hok i)]
  · intro i hi
    obtain ⟨k, hk, rfl⟩ := List.mem_map.mp hi
    have hk' := List.mem_range.mp hk
    omega
  · intro hn
    exact List.mem_map.mpr ⟨0, List.mem_range.mpr hn, rfl⟩

/-- Claim C4, witness: the enumeration applied at a concrete one-quest
environment. -/
theorem C4_list_enumeration_witness :
    getQuestIds (runUseQuestsGrove sampleListEnv none).1 = groveIds 1 ∧
    getQuestIds (runUseQuestsSimple sampleListEnv none).1 = simpleIds 1 ∧
    groveIds 1 = List.map (fun i : ℕ => (i : ℤ) + 1) (List.range 1) ∧
    (∀ i ∈ groveIds 1, 1 ≤ i ∧ i ≤ (1 : ℤ)) ∧
    (0 < 1 → (0 : ℤ) ∈ simpleIds 1) :=
  C4_list_enumeration sampleListEnv 1 none rfl (fun _ => ⟨sampleQuest, rfl⟩)

/-- Claim C5, counterexample: with every field validator passing but
`loading = true`, all four validation gates hold while `canSubmit` is
false — the claimed equivalence with the four gates alone fails. -/
theorem C5_counterexample :
    isValidTitle { validFields with loading := true } = true ∧
    isValidDescription { validFields with loading := true } = true ∧
    isValidPrize envWallet { validFields with loading := true } = true ∧
    isValidDeadline envWallet { validFields with loading := true } = true ∧
    canSubmit envWallet { validFields with loading := true } = false := by
  decide

/-- Claim C5 (amended): `canSubmit` is true iff the four validation gates
hold and the form is not busy (`loading = false`); invalidating any single
gate forces `canSubmit` to false. -/
theorem C5_canSubmit_gates (env : CreateEnv) (st : CreateState) :
    (canSubmit env st = true ↔
      (isValidTitle st = true ∧ isValidDescription st = true ∧
       isValidPrize env st = true ∧ isValidDeadline env st = true ∧
       st.loading = false)) ∧
    (isValidTitle st = false → canSubmit env st = false) ∧
    (isValidDescription st = false → canSubmit env st = false) ∧
    (isValidPrize env st = false → canSubmit env st = false) ∧
    (isValidDeadline env st = false → canSubmit env st = false) := by
  unfold canSubmit
  constructor
  · cases h1 : isValidTitle st <;> cases h2 : isValidDescription st <;>
      cases h3 : isValidPrize env st <;> cases h4 : isValidDeadline env st <;>
      cases h5 : st.loading <;> simp
  · refine ⟨fun h => ?_, fun h => ?_, fun h => ?_, fun h => ?_⟩ <;>
      simp [h]

/-- Claim C5, witness: the amended equivalence applied at a concrete valid
state. -/
theorem C5_canSubmit_gates_witness :
    canSubmit envWallet validFields = true :=
  ((C5_canSubmit_gates envWallet validFields).1).mpr
    ⟨by decide, by decide, by decide, by decide, by decide⟩

/-- Claim C6, counterexample: with `finalized = true` and `cancelled = true`
the status ternary of the simple detail page yields "Finalized", not
"Cancelled" — the clause "cancelled always yields Cancelled regardless of
finalized" fails on the code. -/
theorem C6_counterexample :
    questStatus true true false = "Finalized" ∧
    questStatus true true false ≠ "Cancelled" := by
  decide

/-- Claim C6 (amended): the displayed status is a pure function of
`(finalized, cancelled, now > deadline)` with `finalized` taking precedence:
both flags false gives "Open"/"Ended" by the deadline, `finalized = true`
always gives "Finalized", and `cancelled = true` gives "Cancelled" whenever
`finalized = false`; the Grove badge list does show a "Cancelled" badge
whenever `cancelled = true`, regardless of `finalized`. -/
theorem C6_status_derivation :
    ∀ c ad : Bool,
      questStatus false false ad = (if ad then "Ended" else "Open") ∧
      questStatus true c ad = "Finalized" ∧
      questStatus false true ad = "Cancelled" ∧
      "Cancelled" ∈ questBadges true true ad := by
  decide

/-- Claim C7, counterexample: in the simple page variant a link of a single
space enables the submit button although it trims to the empty string — the
claimed trimmed-non-empty validation does not hold in both variants. -/
theorem C7_counterexample :
    submitEnabledSimple " " false = true ∧ jsTrim " " = "" := by
  decide

/-- Claim C7 (amended): the submission section renders exactly when the
record is neither finalized nor cancelled (the Grove variant additionally
requires the deadline not to have passed); the Grove submit action requires
a non-blank trimmed link, while the simple variant only requires the raw
link string to be non-empty. -/
theorem C7_submission_gating (quest : Option QuestRecord) (nowSec : ℤ)
    (link : String) (submitting : Bool) :
    (submitSectionVisibleGrove quest nowSec = true ↔
      (questFinalized quest = false ∧ questCancelled quest = false ∧
       afterDeadlineB quest nowSec = false)) ∧
    (submitSectionVisibleSimple quest = true ↔
      (questFinalized quest = false ∧ questCancelled quest = false)) ∧
    (submitEnabledGrove link submitting = true → jsTrim link ≠ "") ∧
    (submitEnabledSimple link submitting = true → link ≠ "") := by
  refine ⟨?_, ?_, ?_, ?_⟩
  · simp [submitSectionVisibleGrove, Bool.and_eq_true, Bool.not_eq_true',
      and_assoc]
  · simp [submitSectionVisibleSimple, Bool.and_eq_true, Bool.not_eq_true']
  · intro h
    simp [submitEnabledGrove, Bool.and_eq_true, Bool.not_eq_true'] at h
    simpa using h.1
  · intro h
    simp [submitEnabledSimple, Bool.and_eq_true, Bool.not_eq_true'] at h
    simpa using h.1

/-- Claim C7, witness: the gating applied at a concrete open quest and a
concrete non-blank link. -/
theorem C7_submission_gating_witness :
    submitSectionVisibleGrove (some sampleQuest) 10 = true ∧
    jsTrim " x " ≠ "" :=
  ⟨(C7_submission_gating (some sampleQuest) 10 " x " false).1.mpr
      ⟨by decide, by decide, by decide⟩,
   (C7_submission_gating (some sampleQuest) 10 " x " false).2.2.1 (by decide)⟩

/-- Claim C8: the winner-selection control renders iff the connected wallet
address and the quest's creator are both non-empty and equal after
lowercasing, the current time is past the deadline, and the quest is not
finalized; in particular it never renders for a wallet whose lowercased
address differs from the creator's. -/
theorem C8_winner_control_visibility (ctxAddr : Option String)
    (quest : Option QuestRecord) (nowSec : ℤ) :
    (winnersControlVisible ctxAddr quest nowSec = true ↔
      (∃ a q, ctxAddr = some a ∧ quest = some q ∧ a ≠ "" ∧ q.creator ≠ "" ∧
        jsToLower q.creator = jsToLower a ∧ q.deadline < nowSec ∧
        q.finalized = false)) ∧
    (∀ a q, ctxAddr = some a → quest = some q →
      jsToLower q.creator ≠ jsToLower a →
      winnersControlVisible ctxAddr quest nowSec = false) := by
  constructor
  · cases ctxAddr with
    | none =>
      simp [winnersControlVisible, isCreator]
    | some a =>
      cases quest with
      | none => simp [winnersControlVisible, isCreator]
      | some q =>
        simp [winnersControlVisible, isCreator, afterDeadlineB,
          questFinalized, Bool.and_eq_true, Bool.not_eq_true',
          decide_eq_true_eq, and_assoc]
  · intro a q ha hq hne
    subst ha; subst hq
    simp [winnersControlVisible, isCreator, hne]

/-- Claim C8, witness: a non-creator wallet never sees the control, even
after the deadline. -/
theorem C8_winner_control_visibility_witness :
    winnersControlVisible (some "0xEVE") (some sampleQuest) 5000 = false :=
  (C8_winner_control_visibility (some "0xEVE") (some sampleQuest) 5000).2
    "0xEVE" sampleQuest rfl rfl (by decide)

/-- Claim C9, counterexample: for the prize string "1.1", `parseFloat`
yields the double 2476979795053773 / 2^51, the code attaches
`BigInt(Math.floor(1.1 * 1e18))` = 1100000000000000128 wei (the binary64
product rounds upward across 40 integers), while the floor of the parsed
prize multiplied exactly by 10^18 is 1100000000000000088 — the claimed
equality fails. -/
theorem C9_counterexample :
    jsParseFloatDec "1.1" = some (mkRat 2476979795053773 2251799813685248) ∧
    ((handlePrepareTransaction envPrize prizeState).1.transactionCalls.map
      TxCall.value) = [1100000000000000128] ∧
    Int.floor
      ((mkRat 2476979795053773 2251799813685248) * (10 : ℚ) ^ (18 : ℕ)) =
      1100000000000000088 ∧
    (1100000000000000128 : ℤ) ≠ 1100000000000000088 := by
  refine ⟨by decide, by decide, ?_, by decide⟩
  rw [Rat.mkRat_eq_div, Int.floor_eq_iff]
  constructor <;> norm_num

/-- Claim C9 (amended): whenever the prepare handler reaches the conversion
(all gates pass, a wallet is connected, the pin succeeds with a truthy cid,
the deadline parses, the prize parses positive), the attached value equals
the floor of the *binary64* product of the parsed prize and 10^18 — the
IEEE-754 rounding of `eth * 1e18` — which can differ from the floor of the
exact product. -/
theorem C9_value_is_rounded_product (env : CreateEnv) (st : CreateState)
    (p : ℚ) (cid : String) (t : ℤ)
    (hsub : canSubmit env st = true)
    (haddr : jsTruthyS env.address = true)
    (hpin : env.pinCid = some cid) (hcid : cid ≠ "")
    (ht : env.dateParseMs st.deadline = some t)
    (hp : env.parseFloatQ st.prize = some p) (hpos : 0 < p) :
    (handlePrepareTransaction env st).1.transactionCalls =
      [{ toAddr := QUESTBOARD_ADDRESS,
         callData := .createQuest cid (Int.fdiv t 1000),
         value := Rat.floor (flMul p oneE18) }] ∧
    oneE18 = (10 : ℚ) ^ (18 : ℕ) := by
  constructor
  · unfold handlePrepareTransaction
    simp [hsub, haddr, hpin, hcid, ht, hp, not_le.mpr hpos]
  · rw [oneE18, Rat.mkRat_eq_div]
    norm_num

/-- Claim C9, witness: the amended statement applied at a concrete
environment whose prize parses to the double 2. -/
theorem C9_value_is_rounded_product_witness :
    (handlePrepareTransaction envWallet validFields).1.transactionCalls =
      [{ toAddr := QUESTBOARD_ADDRESS,
         callData := .createQuest "QmPin" (Int.fdiv 1893456000000 1000),
         value := Rat.floor (flMul 2 oneE18) }] :=
  (C9_value_is_rounded_product envWallet validFields 2 "QmPin" 1893456000000
    (by decide) (by decide) rfl (by decide) (by decide) (by decide)
    (by decide)).1

/-- Claim C10: with no connected wallet address, the prepare handler of the
creation form returns before doing anything: it performs no pin request,
encodes no call, and leaves the component state unchanged — even when all
validation gates hold. -/
theorem C10_prepare_requires_wallet (env : CreateEnv) (st : CreateState)
    (h : jsTruthyS env.address = false) :
    handlePrepareTransaction env st = (st, []) := by
  unfold handlePrepareTransaction
  simp [h]

/-- Claim C10, witness: the guard applied at a concrete state whose four
validation gates all hold, in an environment with no wallet. -/
theorem C10_prepare_requires_wallet_witness :
    canSubmit envNoWallet validFields = true ∧
    handlePrepareTransaction envNoWallet validFields = (validFields, []) :=
  ⟨by decide, C10_prepare_requires_wallet envNoWallet validFields (by decide)⟩

end QuestBoard
